import Mathlib

/-!
# Verification of the real-time warning analyzer (`Scripts/WarningAnalysis.py`)

Shallow embedding of `analyze_realtime_point` and its helpers.

Modelling conventions:
* All numeric values that the analyzer compares or stores (coordinates, speeds,
  horizons, the knots→m/s factor) are embedded as exact rationals `ℚ`.
* The great-circle destination computation `_calculate_destination_point` is
  floating-point transcendental mathematics (`sin`, `cos`, `asin`, `atan2`);
  its output values are not exactly representable in a shallow embedding, so the
  analyzer is parameterised over an arbitrary destination function
  `dest : ℚ → ℚ → ℚ → ℚ → ℚ × ℚ` standing for
  `_calculate_destination_point lon lat bearing distance`.  Every property
  proved below holds for every such function; none of the verified claims
  depends on the numeric values the projection produces.
* The exact polygon containment test delegated to shapely
  (`geometry.contains(point)`) is modelled from shapely's documented semantics:
  `polygon.contains(point)` holds iff the point lies in the *interior* of the
  polygon (a point exactly on the boundary is not contained).  The model
  implements this with exact rational even-odd ray casting plus an explicit
  boundary test.  Polygons are modelled as their exterior ring (the repository's
  zone polygons are simple rings; interior holes are not modelled).
* The GeoPandas spatial index (`GeoDataFrame.sindex`) is modelled as the list of
  axis-aligned bounding boxes of the zone geometries, in order; the query
  `sindex.intersection(point.bounds)` returns the positions whose box contains
  the (degenerate) point box, and `iloc` looks those positions up.
-/

/-- A geographic point with rational longitude/latitude coordinates. -/
structure GPoint where
  lon : ℚ
  lat : ℚ
deriving DecidableEq, Repr

/-- A zone polygon, modelled as its exterior ring (list of vertices; the edge
from the last vertex back to the first closes the ring). -/
abbrev Polygon := List GPoint

/-- Axis-aligned bounding box, as stored in the modelled spatial index. -/
structure BBox where
  minLon : ℚ
  minLat : ℚ
  maxLon : ℚ
  maxLat : ℚ
deriving DecidableEq, Repr

/-- Fold a list of rationals down to its minimum, seeded with `x`. -/
def listMin (x : ℚ) (xs : List ℚ) : ℚ := xs.foldl min x

/-- Fold a list of rationals down to its maximum, seeded with `x`. -/
def listMax (x : ℚ) (xs : List ℚ) : ℚ := xs.foldl max x

/-- Bounding box of a polygon: the componentwise min/max over its vertices
(the box stored per geometry by the modelled spatial index). -/
def polyBBox (poly : Polygon) : BBox :=
  match poly with
  | [] => ⟨0, 0, 0, 0⟩
  | v :: vs =>
      ⟨listMin v.lon (vs.map GPoint.lon), listMin v.lat (vs.map GPoint.lat),
       listMax v.lon (vs.map GPoint.lon), listMax v.lat (vs.map GPoint.lat)⟩

/-- Does a bounding box contain a point (boundary inclusive, as for an R-tree
query with a degenerate query box)? -/
def bboxContainsPoint (bb : BBox) (p : ℚ × ℚ) : Bool :=
  bb.minLon ≤ p.1 && p.1 ≤ bb.maxLon && bb.minLat ≤ p.2 && p.2 ≤ bb.maxLat

/-- The edges of a ring: consecutive vertex pairs, wrapping around. -/
def ringEdges (poly : Polygon) : List (GPoint × GPoint) := poly.zip (poly.rotate 1)

/-- Is `p` on the closed segment from `a` to `b`?  (Exact collinearity plus a
bounding-box check, all in ℚ.) -/
def pointOnSegment (p : ℚ × ℚ) (a b : GPoint) : Bool :=
  decide ((b.lon - a.lon) * (p.2 - a.lat) = (b.lat - a.lat) * (p.1 - a.lon)) &&
  decide (min a.lon b.lon ≤ p.1) && decide (p.1 ≤ max a.lon b.lon) &&
  decide (min a.lat b.lat ≤ p.2) && decide (p.2 ≤ max a.lat b.lat)

/-- Is `p` on the boundary of the polygon (on any edge of its ring)? -/
def pointOnBoundary (p : ℚ × ℚ) (poly : Polygon) : Bool :=
  (ringEdges poly).any (fun e => pointOnSegment p e.1 e.2)

/-- Does the edge `e` cross the horizontal ray going right from `p`?
Standard even-odd ray-casting test, exact in ℚ.  (When the edge does not
straddle the ray's latitude the first conjunct is false and the division,
which is total in ℚ, is irrelevant.) -/
def edgeCrossesRay (p : ℚ × ℚ) (e : GPoint × GPoint) : Bool :=
  (xor (decide (e.1.lat > p.2)) (decide (e.2.lat > p.2))) &&
  decide (p.1 < e.1.lon + (e.2.lon - e.1.lon) * (p.2 - e.1.lat) / (e.2.lat - e.1.lat))

/-- Number of ring edges crossing the rightward ray from `p`. -/
def raycastCrossings (p : ℚ × ℚ) (poly : Polygon) : Nat :=
  ((ringEdges poly).filter (edgeCrossesRay p)).length

/-- Modelled from shapely's documented semantics: `polygon.contains(point)` is
true iff the point lies in the interior of the polygon - strictly inside, a
point exactly on the boundary is *not* contained.  Realised as: not on the
boundary, and an odd number of ray crossings. -/
def shapelyContains (poly : Polygon) (p : ℚ × ℚ) : Bool :=
  !(pointOnBoundary p poly) && decide (raycastCrossings p poly % 2 = 1)

/-! ## Parity of sign flips around a closed ring

A closed ring crosses any horizontal line an even number of times: walking
around the cycle, the predicate "latitude above the line" flips an even number
of times.  This is the key fact making bounding-box pruning of the even-odd
ray cast sound. -/

/-- XOR-fold of a list of booleans (its parity). -/
def xFold (l : List Bool) : Bool := l.foldr xor false

/-! ## Data model of `analyze_realtime_point` -/

/-- The parsed content of a zone GeoJSON file: its coordinate reference system
(EPSG code, if the file declares one) and its polygon geometries. -/
structure ZoneFile where
  crs_epsg : Option Int
  geoms : List Polygon
deriving DecidableEq, Repr

/-- The external world as the analyzer sees it: the file-system probe used by
`os.path.exists`, the GeoJSON reader `gpd.read_file` (`none` models a raised
read/parse error), and the reprojection `to_crs(epsg=4326)` from a source EPSG
code (whose numeric output the embedding leaves unconstrained). -/
structure Env where
  fileExists : String → Bool
  readFile : String → Option ZoneFile
  reproject : Int → List Polygon → List Polygon

/-- The three module-level globals of `WarningAnalysis.py` (lines 33-39),
all initially `None`. -/
structure CacheState where
  zones_gdf_cache : Option (List Polygon)
  zones_path_cache : Option String
  zones_spatial_index_cache : Option (List BBox)
deriving DecidableEq, Repr

/-- The `point_data` dictionary.  `none` on `lon`/`lat`/`bearing_deg` models a
missing key (reading it raises `KeyError`); `speed_knots` distinguishes a
missing key (outer `none`; `dict.get` then yields the default `0`) from a key
present with value `None` (inner `none`).  Non-numeric dictionary values are
not modelled. -/
structure PointData where
  lon : Option ℚ
  lat : Option ℚ
  speed_knots : Option (Option ℚ)
  bearing_deg : Option ℚ
deriving DecidableEq, Repr

/-- The analysis configuration: the `warning_levels_seconds` dictionary as its
(level, horizonSeconds) items in dict iteration order (keys already parsed to
integers, as `{int(k): v ...}` does), and the optional
`knots_to_mps_conversion` entry. -/
structure Config where
  warning_levels_seconds : List (Int × ℚ)
  knots_to_mps_conversion : Option ℚ
deriving DecidableEq, Repr

/-- What one call to `analyze_realtime_point` produces: the cache state left in
the module globals, the returned `(warning, prediction_path)` pair, and whether
the call entered the zone-loading branch of step 1 (the only part doing file
I/O). -/
structure AnalyzeOut where
  state : CacheState
  warning : Int
  prediction_path : List (ℚ × ℚ)
  reloaded : Bool
deriving DecidableEq, Repr

/-- `KNOTS_TO_MPS = ANALYSIS_CONFIG.get('knots_to_mps_conversion', 1.852/3.6)`
(the float default idealised as the exact rational `1852/3600`). -/
def knotsToMps (cfg : Config) : ℚ := cfg.knots_to_mps_conversion.getD (1852 / 3600)

/-- `speed_knots = point_data.get('speed_knots', 0)` (line 157). -/
def speedVal (pd : PointData) : Option ℚ :=
  match pd.speed_knots with
  | none => some 0
  | some v => v

/-- CRS normalisation (lines 128-129): reproject to WGS 84 unless the file has
no CRS or is already EPSG:4326. -/
def normalizeCrs (env : Env) (zf : ZoneFile) : List Polygon :=
  match zf.crs_epsg with
  | some e => if e ≠ 4326 then env.reproject e zf.geoms else zf.geoms
  | none => zf.geoms

/-- `list(sindex.intersection(point_geom.bounds))`: the positions of the index
boxes containing the (degenerate) point box. -/
def sindexQuery (sidx : List BBox) (p : ℚ × ℚ) : List Nat :=
  (List.range sidx.length).filter (fun i => bboxContainsPoint (sidx.getD i ⟨0, 0, 0, 0⟩) p)

/-- `zones_gdf_cache.iloc[positions]`: positional lookup; an out-of-range
position raises (`none`). -/
def ilocAll (gdf : List Polygon) (idxs : List Nat) : Option (List Polygon) :=
  idxs.mapM (fun i => gdf[i]?)

/-- The two-phase containment test of lines 166-169 (and 204-206): broad-phase
bounding-box pruning through the spatial index, then exact shapely `contains`
tests over the pruned candidates, combined with `.any()`.  `.error` models the
exception raised when the cached index is out of sync with the geometries. -/
def containsAnyE (gdf : List Polygon) (sidx : List BBox) (p : ℚ × ℚ) :
    Except Unit Bool :=
  match ilocAll gdf (sindexQuery sidx p) with
  | none => .error ()
  | some polys => .ok (polys.any (fun poly => shapelyContains poly p))

/-- `sorted(WARNING_LEVELS.items(), key=lambda item: item[1])` (lines 183 and
196): the configured (level, horizon) pairs, stably sorted by ascending
horizon seconds. -/
def sortedLevels (cfg : Config) : List (Int × ℚ) :=
  cfg.warning_levels_seconds.mergeSort (fun a b => decide (a.2 ≤ b.2))

/-- The predictive scan (lines 196-212): walk the sorted levels, project to
each horizon, and stop at the first projected point outside all zones; `0` if
every horizon stays inside. -/
def scanWarn (gdf : List Polygon) (sidx : List BBox)
    (dest : ℚ → ℚ → ℚ → ℚ → ℚ × ℚ) (lon lat bearing_deg speed_mps : ℚ) :
    List (Int × ℚ) → Except Unit Int
  | [] => .ok 0
  | (level, seconds) :: rest =>
      match containsAnyE gdf sidx (dest lon lat bearing_deg (speed_mps * seconds)) with
      | .error e => .error e
      | .ok true => scanWarn gdf sidx dest lon lat bearing_deg speed_mps rest
      | .ok false => .ok level

/-- Specification-side description, written from the spec's words for
comparison with the implementation: the level paired with the first horizon in
the given order whose projected point lies outside every zone polygon; `0` if
there is none. -/
def specFirstExitLevel (dest : ℚ → ℚ → ℚ → ℚ → ℚ × ℚ)
    (lon lat bearing_deg speed_mps : ℚ) (gdf : List Polygon) :
    List (Int × ℚ) → Int
  | [] => 0
  | (level, seconds) :: rest =>
      if gdf.any (fun poly =>
          shapelyContains poly (dest lon lat bearing_deg (speed_mps * seconds))) then
        specFirstExitLevel dest lon lat bearing_deg speed_mps gdf rest
      else level

/-- The cache state holding geometries `gdf` for source `fpath` together with
their freshly built spatial index, as written by lines 132-135. -/
def readyState (gdf : List Polygon) (fpath : String) : CacheState :=
  ⟨some gdf, some fpath, some (gdf.map polyBBox)⟩

/-- Steps 2-3 of `analyze_realtime_point` (lines 144-214): everything after the
zone cache has been settled.  This part never mutates the globals.  `.error`
models an exception reaching the handler (missing dict key, out-of-sync
cache); `.ok` is a normal `return`. -/
def analyzeInner (dest : ℚ → ℚ → ℚ → ℚ → ℚ × ℚ) (st : CacheState)
    (pd : PointData) (cfg : Config) : Except Unit (Int × List (ℚ × ℚ)) :=
  match pd.lon, pd.lat with
  | some lon, some lat =>
      if -180 ≤ lon ∧ lon ≤ 180 ∧ -90 ≤ lat ∧ lat ≤ 90 then
        let prediction_path : List (ℚ × ℚ) := [(lon, lat)]
        match speedVal pd with
        | none => .ok (0, prediction_path)
        | some speed_knots =>
            if speed_knots ≤ 1 / 10 then .ok (0, prediction_path)
            else
              match st.zones_spatial_index_cache, st.zones_gdf_cache with
              | some sidx, some gdf =>
                  match containsAnyE gdf sidx (lon, lat) with
                  | .error e => .error e
                  | .ok is_currently_inside =>
                      if is_currently_inside then
                        match pd.bearing_deg with
                        | none => .error ()
                        | some bearing_deg =>
                            let speed_mps := speed_knots * knotsToMps cfg
                            let full_path := prediction_path ++
                              (sortedLevels cfg).map
                                (fun ls => dest lon lat bearing_deg (speed_mps * ls.2))
                            match scanWarn gdf sidx dest lon lat bearing_deg speed_mps
                                (sortedLevels cfg) with
                            | .error e => .error e
                            | .ok w => .ok (w, full_path)
                      else .ok (1, prediction_path)
              | _, _ => .error ()
      else .ok (-1, [])
  | _, _ => .error ()

/-- The body of the `try` block of `analyze_realtime_point`: step 1 settles the
module cache (lines 114-142, the only part that mutates it or touches files),
then hands over to `analyzeInner`.  `.ok` is a normal `return` (including the
explicit `return -1, []` for a missing file); `.error` is an exception flying
towards the `except` handler, carrying the cache state at raise time (already
replaced or not) and whether the loading branch ran. -/
def analyzeCore (env : Env) (dest : ℚ → ℚ → ℚ → ℚ → ℚ × ℚ) (st : CacheState)
    (pd : PointData) (fpath : String) (cfg : Config) :
    Except (CacheState × Bool) AnalyzeOut :=
  if st.zones_path_cache ≠ some fpath ∨ st.zones_gdf_cache = none then
    if env.fileExists fpath then
      match env.readFile fpath with
      | none => .error (st, true)
      | some zf =>
          match analyzeInner dest (readyState (normalizeCrs env zf) fpath) pd cfg with
          | .ok (w, pp) => .ok ⟨readyState (normalizeCrs env zf) fpath, w, pp, true⟩
          | .error _ => .error (readyState (normalizeCrs env zf) fpath, true)
    else .ok ⟨st, -1, [], true⟩
  else
    match analyzeInner dest st pd cfg with
    | .ok (w, pp) => .ok ⟨st, w, pp, false⟩
    | .error _ => .error (st, false)

/-- `analyze_realtime_point` itself: run the `try` body; the `except` handler
(lines 216-225) turns any escaped exception into the sentinel `(-1, [])`,
leaving the globals as they are at that moment. -/
def analyze (env : Env) (dest : ℚ → ℚ → ℚ → ℚ → ℚ × ℚ) (st : CacheState)
    (pd : PointData) (fpath : String) (cfg : Config) : AnalyzeOut :=
  match analyzeCore env dest st pd fpath cfg with
  | .ok out => out
  | .error (st2, b) => ⟨st2, -1, [], b⟩

/-- Mutual consistency of the three module-level globals: either nothing is
cached yet (the initial state), or the cached path names a readable file whose
(reprojected) geometries are exactly the cached GeoDataFrame, with the spatial
index built from those same geometries. -/
def consistent (env : Env) (st : CacheState) : Prop :=
  (st.zones_gdf_cache = none ∧ st.zones_path_cache = none ∧
    st.zones_spatial_index_cache = none) ∨
  (∃ p zf, st.zones_path_cache = some p ∧ env.fileExists p = true ∧
    env.readFile p = some zf ∧
    st.zones_gdf_cache = some (normalizeCrs env zf) ∧
    st.zones_spatial_index_cache = some ((normalizeCrs env zf).map polyBBox))

/-! ## Concrete fixtures for witnesses and counterexamples -/

/-- The unit-square zone of the spec's test scenarios (exterior ring). -/
def unitSq : Polygon := [⟨0, 0⟩, ⟨1, 0⟩, ⟨1, 1⟩, ⟨0, 1⟩]

/-- A one-zone world: every path resolves to a readable file holding the unit
square, with no explicit CRS. -/
def envA : Env :=
  { fileExists := fun _ => true
    readFile := fun _ => some ⟨none, [unitSq]⟩
    reproject := fun _ g => g }

/-- A destination function for witnesses (its values are irrelevant to the
properties proved, which hold for every destination function; this one keeps
the vessel in place). -/
def dest0 : ℚ → ℚ → ℚ → ℚ → ℚ × ℚ := fun lon lat _ _ => (lon, lat)

/-- The initial cache state: all three globals `None`. -/
def st0 : CacheState := ⟨none, none, none⟩

/-- The zone file served by `envA`. -/
def zfA : ZoneFile := ⟨none, [unitSq]⟩

/-- Two warning levels: level 1 at horizon 300 s, level 2 at horizon 600 s. -/
def cfgA : Config := ⟨[(1, 300), (2, 600)], none⟩

/-- A moving vessel inside the unit square, bearing due north. -/
def pdIn : PointData := ⟨some (1 / 2), some (1 / 2), some (some 5), some 0⟩

/-! ## Elementary facts about the bounding box -/

theorem listMin_le_seed (x : ℚ) (xs : List ℚ) : listMin x xs ≤ x := by
  induction xs generalizing x with
  | nil => simp [listMin]
  | cons a l ih =>
      have h := ih (min x a)
      simp only [listMin, List.foldl_cons] at h ⊢
      exact h.trans (min_le_left _ _)

theorem listMin_le_mem (x : ℚ) (xs : List ℚ) (a : ℚ) (ha : a ∈ xs) :
    listMin x xs ≤ a := by
  induction xs generalizing x with
  | nil => cases ha
  | cons b l ih =>
      rcases List.mem_cons.mp ha with h | h
      · subst h
        have h1 := listMin_le_seed (min x a) l
        simp only [listMin, List.foldl_cons]
        exact h1.trans (min_le_right _ _)
      · simpa only [listMin, List.foldl_cons] using ih (min x b) h

theorem seed_le_listMax (x : ℚ) (xs : List ℚ) : x ≤ listMax x xs := by
  induction xs generalizing x with
  | nil => simp [listMax]
  | cons a l ih =>
      have h := ih (max x a)
      simp only [listMax, List.foldl_cons] at h ⊢
      exact (le_max_left _ _).trans h

theorem mem_le_listMax (x : ℚ) (xs : List ℚ) (a : ℚ) (ha : a ∈ xs) :
    a ≤ listMax x xs := by
  induction xs generalizing x with
  | nil => cases ha
  | cons b l ih =>
      rcases List.mem_cons.mp ha with h | h
      · subst h
        have h1 := seed_le_listMax (max x a) l
        simp only [listMax, List.foldl_cons]
        exact (le_max_right _ _).trans h1
      · simpa only [listMax, List.foldl_cons] using ih (max x b) h

/-- Every vertex of a polygon lies inside the polygon's bounding box. -/
theorem vertex_in_polyBBox (poly : Polygon) (v : GPoint) (hv : v ∈ poly) :
    (polyBBox poly).minLon ≤ v.lon ∧ v.lon ≤ (polyBBox poly).maxLon ∧
    (polyBBox poly).minLat ≤ v.lat ∧ v.lat ≤ (polyBBox poly).maxLat := by
  match poly, hv with
  | w :: vs, hv =>
      rcases List.mem_cons.mp hv with h | h
      · subst h
        exact ⟨listMin_le_seed _ _, seed_le_listMax _ _, listMin_le_seed _ _,
          seed_le_listMax _ _⟩
      · refine ⟨listMin_le_mem _ _ _ ?_, mem_le_listMax _ _ _ ?_,
          listMin_le_mem _ _ _ ?_, mem_le_listMax _ _ _ ?_⟩ <;>
          exact List.mem_map_of_mem _ h

theorem xFold_append_singleton (t : List Bool) (a : Bool) :
    xFold (t ++ [a]) = xor (xFold t) a := by
  induction t with
  | nil => simp [xFold]
  | cons b t ih =>
      simp only [xFold, List.cons_append, List.foldr_cons] at ih ⊢
      rw [ih, Bool.xor_assoc]

theorem xFold_rotate_one (l : List Bool) : xFold (l.rotate 1) = xFold l := by
  cases l with
  | nil => simp
  | cons a t =>
      rw [List.rotate_cons_succ, List.rotate_zero, xFold_append_singleton]
      simp only [xFold, List.foldr_cons]
      rw [Bool.xor_comm]

theorem xor4 :
    ∀ (a c x y : Bool), xor (xor a c) (xor x y) = xor (xor a x) (xor c y) := by
  decide

/-- Parity of the number of "flip" pairs in a zip, as an XOR of parities. -/
theorem countP_zip_xor (f : α → Bool) :
    ∀ (u v : List α), u.length = v.length →
      ((u.zip v).countP (fun e => xor (f e.1) (f e.2))) % 2 =
        (xor (xFold (u.map f)) (xFold (v.map f))).toNat := by
  intro u
  induction u with
  | nil =>
      intro v hv
      cases v with
      | nil => simp [xFold]
      | cons b w => simp at hv
  | cons a u ih =>
      intro v hv
      cases v with
      | nil => simp at hv
      | cons b w =>
          have hlen : u.length = w.length := by simpa using hv
          have IH := ih w hlen
          simp only [List.zip_cons_cons, List.countP_cons, List.map_cons]
          have hx : xFold (f a :: u.map f) = xor (f a) (xFold (u.map f)) := rfl
          have hy : xFold (f b :: w.map f) = xor (f b) (xFold (w.map f)) := rfl
          rw [hx, hy, xor4]
          cases hfa : xor (f a) (f b) <;>
            cases hrest : xor (xFold (u.map f)) (xFold (w.map f)) <;>
              simp [hfa, hrest] at IH ⊢ <;> omega

/-- Around a closed ring, the number of edges whose endpoints lie on opposite
sides of a horizontal line is even. -/
theorem even_countP_flip (f : α → Bool) (l : List α) :
    Even ((l.zip (l.rotate 1)).countP (fun e => xor (f e.1) (f e.2))) := by
  have hlen : l.length = (l.rotate 1).length := by simp
  have h := countP_zip_xor f l (l.rotate 1) hlen
  rw [List.map_rotate, xFold_rotate_one] at h
  rw [Nat.even_iff, h]
  simp

/-- The intersection of a straddling edge with a horizontal line lies between
the longitudes of the edge's endpoints. -/
theorem xi_bounds (a b : GPoint) (y : ℚ)
    (hflip : xor (decide (a.lat > y)) (decide (b.lat > y)) = true) :
    min a.lon b.lon ≤ a.lon + (b.lon - a.lon) * (y - a.lat) / (b.lat - a.lat) ∧
    a.lon + (b.lon - a.lon) * (y - a.lat) / (b.lat - a.lat) ≤ max a.lon b.lon := by
  have ht : 0 ≤ (y - a.lat) / (b.lat - a.lat) ∧ (y - a.lat) / (b.lat - a.lat) ≤ 1 := by
    by_cases h1 : a.lat > y <;> by_cases h2 : b.lat > y
    · simp [h1, h2] at hflip
    · push_neg at h2
      have hnum : y - a.lat = -(a.lat - y) := by ring
      have hden : b.lat - a.lat = -(a.lat - b.lat) := by ring
      have hd : 0 < a.lat - b.lat := by linarith
      rw [hnum, hden, neg_div_neg_eq]
      exact ⟨div_nonneg (by linarith) (le_of_lt hd), (div_le_one hd).mpr (by linarith)⟩
    · push_neg at h1
      have hd : 0 < b.lat - a.lat := by linarith
      exact ⟨div_nonneg (by linarith) (le_of_lt hd), (div_le_one hd).mpr (by linarith)⟩
    · simp [h1, h2] at hflip
  obtain ⟨ht0, ht1⟩ := ht
  rw [mul_div_assoc]
  set t := (y - a.lat) / (b.lat - a.lat) with htdef
  constructor
  · rcases le_total a.lon b.lon with h | h
    · rw [min_eq_left h]
      have := mul_nonneg (sub_nonneg.mpr h) ht0
      linarith
    · rw [min_eq_right h]
      have := mul_le_mul_of_nonpos_left ht1 (sub_nonpos.mpr h)
      rw [mul_one] at this
      linarith
  · rcases le_total a.lon b.lon with h | h
    · rw [max_eq_right h]
      have := mul_le_of_le_one_right (sub_nonneg.mpr h) ht1
      linarith
    · rw [max_eq_left h]
      have := mul_nonpos_of_nonpos_of_nonneg (sub_nonpos.mpr h) ht0
      linarith

/-- Soundness of bounding-box pruning for the exact containment test: a point
in the interior of a polygon lies inside the polygon's bounding box, so the
broad-phase filter never discards a polygon that actually contains the point. -/
theorem shapelyContains_bbox (poly : Polygon) (p : ℚ × ℚ)
    (h : shapelyContains poly p = true) :
    bboxContainsPoint (polyBBox poly) p = true := by
  unfold shapelyContains at h
  rw [Bool.and_eq_true, decide_eq_true_eq] at h
  obtain ⟨-, hodd⟩ := h
  have hpos : 0 < raycastCrossings p poly := by omega
  unfold raycastCrossings at hodd hpos
  rw [← List.countP_eq_length_filter] at hpos
  obtain ⟨e, he, hce⟩ := List.countP_pos_iff.mp hpos
  obtain ⟨a, b⟩ := e
  have hmem : a ∈ poly ∧ b ∈ poly.rotate 1 := List.of_mem_zip he
  have hbp : b ∈ poly := List.mem_rotate.mp hmem.2
  have Va := vertex_in_polyBBox poly a hmem.1
  have Vb := vertex_in_polyBBox poly b hbp
  unfold edgeCrossesRay at hce
  dsimp only at hce
  rw [Bool.and_eq_true, decide_eq_true_eq] at hce
  obtain ⟨hflip, hxi⟩ := hce
  have hxib := xi_bounds a b p.2 hflip
  -- latitude range
  have hlat : (polyBBox poly).minLat ≤ p.2 ∧ p.2 ≤ (polyBBox poly).maxLat := by
    by_cases h1 : a.lat > p.2 <;> by_cases h2 : b.lat > p.2
    · simp [h1, h2] at hflip
    · push_neg at h2
      exact ⟨le_trans Vb.2.2.1 h2, le_trans (le_of_lt h1) Va.2.2.2⟩
    · push_neg at h1
      exact ⟨le_trans Va.2.2.1 h1, le_trans (le_of_lt h2) Vb.2.2.2⟩
    · simp [h1, h2] at hflip
  -- longitude upper bound
  have hlonhi : p.1 ≤ (polyBBox poly).maxLon := by
    have h1 : max a.lon b.lon ≤ (polyBBox poly).maxLon := max_le Va.2.1 Vb.2.1
    linarith [hxib.2]
  -- longitude lower bound, by the parity argument
  have hlonlo : (polyBBox poly).minLon ≤ p.1 := by
    by_contra hlt
    push_neg at hlt
    have hall : ∀ e ∈ ringEdges poly, edgeCrossesRay p e =
        (xor (decide (e.1.lat > p.2)) (decide (e.2.lat > p.2))) := by
      intro e hemem
      obtain ⟨c, d⟩ := e
      by_cases hf : xor (decide (c.lat > p.2)) (decide (d.lat > p.2)) = true
      · have hcd : c ∈ poly ∧ d ∈ poly.rotate 1 := List.of_mem_zip hemem
        have Vc := vertex_in_polyBBox poly c hcd.1
        have Vd := vertex_in_polyBBox poly d (List.mem_rotate.mp hcd.2)
        have hx := (xi_bounds c d p.2 hf).1
        have hmin : (polyBBox poly).minLon ≤ min c.lon d.lon :=
          le_min Vc.1 Vd.1
        unfold edgeCrossesRay
        dsimp only
        rw [hf, Bool.true_and]
        exact decide_eq_true (by linarith)
      · rw [Bool.not_eq_true] at hf
        unfold edgeCrossesRay
        dsimp only
        rw [hf, Bool.false_and]
    rw [List.filter_congr hall, ← List.countP_eq_length_filter] at hodd
    have heven := even_countP_flip (fun v : GPoint => decide (v.lat > p.2)) poly
    rw [Nat.even_iff] at heven
    unfold ringEdges at hodd
    omega
  unfold bboxContainsPoint
  simp only [Bool.and_eq_true, decide_eq_true_eq]
  exact ⟨⟨⟨hlonlo, hlonhi⟩, hlat.1⟩, hlat.2⟩

/-! ## The two-phase containment test agrees with the plain containment test -/

theorem getD_poly (gdf : List Polygon) (i : Nat) (h : i < gdf.length) :
    gdf.getD i [] = gdf[i] := by
  rw [List.getD_eq_getElem?_getD, List.getElem?_eq_getElem h]
  rfl

theorem getD_map_polyBBox (gdf : List Polygon) (i : Nat) (h : i < gdf.length) :
    (gdf.map polyBBox).getD i ⟨0, 0, 0, 0⟩ = polyBBox gdf[i] := by
  rw [List.getD_eq_getElem?_getD, List.getElem?_map, List.getElem?_eq_getElem h]
  rfl

theorem ilocAll_any (gdf : List Polygon) (c : Polygon → Bool) :
    ∀ idxs : List Nat, (∀ i ∈ idxs, i < gdf.length) →
      ∃ polys, ilocAll gdf idxs = some polys ∧
        polys.any c = idxs.any (fun i => c (gdf.getD i [])) := by
  intro idxs
  induction idxs with
  | nil => intro _; exact ⟨[], rfl, rfl⟩
  | cons i is ih =>
      intro h
      have hi : i < gdf.length := h i (List.mem_cons_self i is)
      obtain ⟨polys, hp, ha⟩ := ih (fun j hj => h j (List.mem_cons_of_mem i hj))
      refine ⟨gdf[i] :: polys, ?_, ?_⟩
      · unfold ilocAll at hp ⊢
        rw [List.mapM_cons, List.getElem?_eq_getElem hi, hp]
        rfl
      · simp only [List.any_cons]
        rw [ha, getD_poly gdf i hi]

/-- The two-phase containment test of `analyze_realtime_point` (bounding-box
pruning through the spatial index, then exact `contains` over the candidates)
computes exactly "the point is contained in at least one zone polygon", as
long as the index is the one built from the geometries. -/
theorem containsAnyE_ready (gdf : List Polygon) (p : ℚ × ℚ) :
    containsAnyE gdf (gdf.map polyBBox) p =
      .ok (gdf.any (fun poly => shapelyContains poly p)) := by
  have hmem : ∀ i ∈ sindexQuery (gdf.map polyBBox) p, i < gdf.length := by
    intro i hi
    unfold sindexQuery at hi
    have h1 := (List.mem_filter.mp hi).1
    rw [List.mem_range] at h1
    simpa using h1
  obtain ⟨polys, hp, ha⟩ := ilocAll_any gdf (fun poly => shapelyContains poly p) _ hmem
  unfold containsAnyE
  rw [hp]
  dsimp only
  rw [ha]
  congr 1
  rw [Bool.eq_iff_iff]
  constructor
  · intro h
    obtain ⟨i, hi, hc⟩ := List.any_eq_true.mp h
    have hlen := hmem i hi
    rw [getD_poly gdf i hlen] at hc
    exact List.any_eq_true.mpr ⟨gdf[i], List.getElem_mem hlen, hc⟩
  · intro h
    obtain ⟨poly, hpm, hc⟩ := List.any_eq_true.mp h
    obtain ⟨i, hlen, rfl⟩ := List.mem_iff_getElem.mp hpm
    refine List.any_eq_true.mpr ⟨i, ?_, ?_⟩
    · unfold sindexQuery
      rw [List.mem_filter]
      refine ⟨List.mem_range.mpr (by simpa using hlen), ?_⟩
      rw [getD_map_polyBBox gdf i hlen]
      exact shapelyContains_bbox _ _ hc
    · rw [getD_poly gdf i hlen]
      exact hc

/-- On a synchronised cache, the predictive scan returns exactly the
specification's "level of the first horizon whose projection is outside". -/
theorem scanWarn_ready (gdf : List Polygon) (dest : ℚ → ℚ → ℚ → ℚ → ℚ × ℚ)
    (lon lat bearing_deg speed_mps : ℚ) :
    ∀ lvls, scanWarn gdf (gdf.map polyBBox) dest lon lat bearing_deg speed_mps lvls =
      .ok (specFirstExitLevel dest lon lat bearing_deg speed_mps gdf lvls) := by
  intro lvls
  induction lvls with
  | nil => rfl
  | cons ls rest ih =>
      obtain ⟨level, seconds⟩ := ls
      simp only [scanWarn]
      rw [containsAnyE_ready]
      cases h : gdf.any (fun poly =>
          shapelyContains poly (dest lon lat bearing_deg (speed_mps * seconds))) with
      | true =>
          simp only [specFirstExitLevel, h, if_true]
          exact ih
      | false =>
          simp only [specFirstExitLevel, h]
          rfl

/-! ## How one call reduces, depending on the cache situation -/

/-- Cache hit: same path, non-empty cache - step 1 is skipped entirely. -/
theorem analyze_eq_cached (env : Env) (dest : ℚ → ℚ → ℚ → ℚ → ℚ × ℚ)
    (st : CacheState) (pd : PointData) (fpath : String) (cfg : Config)
    (hpath : st.zones_path_cache = some fpath) (hgdf : st.zones_gdf_cache ≠ none) :
    analyze env dest st pd fpath cfg =
      match analyzeInner dest st pd cfg with
      | .ok (w, pp) => ⟨st, w, pp, false⟩
      | .error _ => ⟨st, -1, [], false⟩ := by
  unfold analyze analyzeCore
  rw [if_neg (not_or.mpr ⟨not_not_intro hpath, hgdf⟩)]
  cases analyzeInner dest st pd cfg with
  | ok v => obtain ⟨w, pp⟩ := v; rfl
  | error e => rfl

/-- Cache miss with a readable file: the triple is replaced wholesale, then
the rest of the call runs on the fresh cache. -/
theorem analyze_eq_load (env : Env) (dest : ℚ → ℚ → ℚ → ℚ → ℚ × ℚ)
    (st : CacheState) (pd : PointData) (fpath : String) (cfg : Config) (zf : ZoneFile)
    (hneed : st.zones_path_cache ≠ some fpath ∨ st.zones_gdf_cache = none)
    (hex : env.fileExists fpath = true) (hrd : env.readFile fpath = some zf) :
    analyze env dest st pd fpath cfg =
      match analyzeInner dest (readyState (normalizeCrs env zf) fpath) pd cfg with
      | .ok (w, pp) => ⟨readyState (normalizeCrs env zf) fpath, w, pp, true⟩
      | .error _ => ⟨readyState (normalizeCrs env zf) fpath, -1, [], true⟩ := by
  unfold analyze analyzeCore
  rw [if_pos hneed, if_pos hex, hrd]
  dsimp only
  cases analyzeInner dest (readyState (normalizeCrs env zf) fpath) pd cfg with
  | ok v => obtain ⟨w, pp⟩ := v; rfl
  | error e => rfl

/-- Cache miss with a missing file: the explicit `return -1, []` of line 122,
cache untouched. -/
theorem analyze_eq_missing (env : Env) (dest : ℚ → ℚ → ℚ → ℚ → ℚ × ℚ)
    (st : CacheState) (pd : PointData) (fpath : String) (cfg : Config)
    (hneed : st.zones_path_cache ≠ some fpath ∨ st.zones_gdf_cache = none)
    (hex : env.fileExists fpath = false) :
    analyze env dest st pd fpath cfg = ⟨st, -1, [], true⟩ := by
  unfold analyze analyzeCore
  rw [if_pos hneed, if_neg (by simp [hex])]

/-- Cache miss with an unreadable file: `gpd.read_file` raises, the handler
returns the sentinel, cache untouched. -/
theorem analyze_eq_readfail (env : Env) (dest : ℚ → ℚ → ℚ → ℚ → ℚ × ℚ)
    (st : CacheState) (pd : PointData) (fpath : String) (cfg : Config)
    (hneed : st.zones_path_cache ≠ some fpath ∨ st.zones_gdf_cache = none)
    (hex : env.fileExists fpath = true) (hrd : env.readFile fpath = none) :
    analyze env dest st pd fpath cfg = ⟨st, -1, [], true⟩ := by
  unfold analyze analyzeCore
  rw [if_pos hneed, if_pos hex, hrd]

/-- Starting from a consistent cache, a call with a readable zone source always
runs the analysis phase on the synchronised cache for that source. -/
theorem analyze_ready (env : Env) (dest : ℚ → ℚ → ℚ → ℚ → ℚ × ℚ)
    (st : CacheState) (pd : PointData) (fpath : String) (cfg : Config) (zf : ZoneFile)
    (hc : consistent env st)
    (hex : env.fileExists fpath = true) (hrd : env.readFile fpath = some zf) :
    ∃ b : Bool, analyze env dest st pd fpath cfg =
      match analyzeInner dest (readyState (normalizeCrs env zf) fpath) pd cfg with
      | .ok (w, pp) => ⟨readyState (normalizeCrs env zf) fpath, w, pp, b⟩
      | .error _ => ⟨readyState (normalizeCrs env zf) fpath, -1, [], b⟩ := by
  by_cases hneed : st.zones_path_cache ≠ some fpath ∨ st.zones_gdf_cache = none
  · exact ⟨true, analyze_eq_load env dest st pd fpath cfg zf hneed hex hrd⟩
  · push_neg at hneed
    obtain ⟨hpath, hgdf⟩ := hneed
    have hst : st = readyState (normalizeCrs env zf) fpath := by
      rcases hc with ⟨h1, h2, h3⟩ | ⟨p, zf2, hp, hex2, hrd2, hg, hs⟩
      · rw [h2] at hpath
        cases hpath
      · have hpf : p = fpath := Option.some.inj ((hp.symm.trans hpath))
        subst hpf
        rw [hrd] at hrd2
        have hzf : zf2 = zf := (Option.some.inj hrd2).symm
        subst hzf
        cases st
        simp only [readyState] at hp hg hs ⊢
        rw [hp, hg, hs]
    have h := analyze_eq_cached env dest st pd fpath cfg hpath hgdf
    rw [hst] at h
    rw [hst]
    exact ⟨false, h⟩

/-- Whatever happens, a call leaves the cache either untouched or wholly
replaced by the freshly loaded triple. -/
theorem analyze_state (env : Env) (dest : ℚ → ℚ → ℚ → ℚ → ℚ × ℚ)
    (st : CacheState) (pd : PointData) (fpath : String) (cfg : Config) :
    (analyze env dest st pd fpath cfg).state = st ∨
    (∃ zf, env.fileExists fpath = true ∧ env.readFile fpath = some zf ∧
      (analyze env dest st pd fpath cfg).state = readyState (normalizeCrs env zf) fpath) := by
  by_cases hneed : st.zones_path_cache ≠ some fpath ∨ st.zones_gdf_cache = none
  · cases hex : env.fileExists fpath with
    | false =>
        left
        rw [analyze_eq_missing env dest st pd fpath cfg hneed hex]
    | true =>
        cases hrd : env.readFile fpath with
        | none =>
            left
            rw [analyze_eq_readfail env dest st pd fpath cfg hneed hex hrd]
        | some zf =>
            right
            refine ⟨zf, rfl, rfl, ?_⟩
            rw [analyze_eq_load env dest st pd fpath cfg zf hneed hex hrd]
            cases analyzeInner dest (readyState (normalizeCrs env zf) fpath) pd cfg with
            | ok v => obtain ⟨w, pp⟩ := v; rfl
            | error e => rfl
  · push_neg at hneed
    left
    rw [analyze_eq_cached env dest st pd fpath cfg hneed.1 hneed.2]
    cases analyzeInner dest st pd cfg with
    | ok v => obtain ⟨w, pp⟩ := v; rfl
    | error e => rfl

/-! ## Behaviour of the analysis phase (steps 2-3) -/

/-- Out-of-range coordinates: the `return -1, []` of line 153. -/
theorem inner_invalid (dest : ℚ → ℚ → ℚ → ℚ → ℚ × ℚ) (st : CacheState)
    (pd : PointData) (cfg : Config) (lon lat : ℚ)
    (hlon : pd.lon = some lon) (hlat : pd.lat = some lat)
    (hinv : ¬(-180 ≤ lon ∧ lon ≤ 180 ∧ -90 ≤ lat ∧ lat ≤ 90)) :
    analyzeInner dest st pd cfg = .ok (-1, []) := by
  unfold analyzeInner
  rw [hlon, hlat]
  dsimp only
  rw [if_neg hinv]

/-- Missing, `None` or near-zero speed: the early `return 0, prediction_path`
of line 162, before any containment test or projection. -/
theorem inner_stationary (dest : ℚ → ℚ → ℚ → ℚ → ℚ × ℚ) (st : CacheState)
    (pd : PointData) (cfg : Config) (lon lat : ℚ)
    (hlon : pd.lon = some lon) (hlat : pd.lat = some lat)
    (hv : -180 ≤ lon ∧ lon ≤ 180 ∧ -90 ≤ lat ∧ lat ≤ 90)
    (hsp : speedVal pd = none ∨ ∃ s, speedVal pd = some s ∧ s ≤ 1 / 10) :
    analyzeInner dest st pd cfg = .ok (0, [(lon, lat)]) := by
  unfold analyzeInner
  rw [hlon, hlat]
  dsimp only
  rw [if_pos hv]
  rcases hsp with h | ⟨s, hs1, hs2⟩
  · rw [h]
  · rw [hs1]
    dsimp only
    rw [if_pos hs2]

/-- Moving vessel already outside all zones: the `return 1, prediction_path`
of line 173, before any projection. -/
theorem inner_outside (dest : ℚ → ℚ → ℚ → ℚ → ℚ × ℚ) (gdf : List Polygon)
    (fpath : String) (pd : PointData) (cfg : Config) (lon lat s : ℚ)
    (hlon : pd.lon = some lon) (hlat : pd.lat = some lat)
    (hv : -180 ≤ lon ∧ lon ≤ 180 ∧ -90 ≤ lat ∧ lat ≤ 90)
    (hsp : speedVal pd = some s) (hs : 1 / 10 < s)
    (hout : gdf.any (fun poly => shapelyContains poly (lon, lat)) = false) :
    analyzeInner dest (readyState gdf fpath) pd cfg = .ok (1, [(lon, lat)]) := by
  unfold analyzeInner
  rw [hlon, hlat]
  dsimp only
  rw [if_pos hv, hsp]
  dsimp only
  rw [if_neg (not_le.mpr hs)]
  dsimp only [readyState]
  rw [containsAnyE_ready, hout]
  rfl

/-- Moving vessel inside the zones with a bearing: the full predictive pass,
building the complete path and scanning horizons in ascending order. -/
theorem inner_scan (dest : ℚ → ℚ → ℚ → ℚ → ℚ × ℚ) (gdf : List Polygon)
    (fpath : String) (pd : PointData) (cfg : Config) (lon lat s bearing : ℚ)
    (hlon : pd.lon = some lon) (hlat : pd.lat = some lat)
    (hv : -180 ≤ lon ∧ lon ≤ 180 ∧ -90 ≤ lat ∧ lat ≤ 90)
    (hsp : speedVal pd = some s) (hs : 1 / 10 < s)
    (hin : gdf.any (fun poly => shapelyContains poly (lon, lat)) = true)
    (hb : pd.bearing_deg = some bearing) :
    analyzeInner dest (readyState gdf fpath) pd cfg =
      .ok (specFirstExitLevel dest lon lat bearing (s * knotsToMps cfg) gdf (sortedLevels cfg),
        (lon, lat) :: (sortedLevels cfg).map
          (fun ls => dest lon lat bearing (s * knotsToMps cfg * ls.2))) := by
  unfold analyzeInner
  rw [hlon, hlat]
  dsimp only
  rw [if_pos hv, hsp]
  dsimp only
  rw [if_neg (not_le.mpr hs)]
  dsimp only [readyState]
  rw [containsAnyE_ready, hin]
  dsimp only
  rw [hb]
  dsimp only
  rw [scanWarn_ready]
  rfl

/-- Moving vessel inside the zones but no `bearing_deg` key: line 177 raises
`KeyError`, which flies to the handler. -/
theorem inner_nobearing (dest : ℚ → ℚ → ℚ → ℚ → ℚ × ℚ) (gdf : List Polygon)
    (fpath : String) (pd : PointData) (cfg : Config) (lon lat s : ℚ)
    (hlon : pd.lon = some lon) (hlat : pd.lat = some lat)
    (hv : -180 ≤ lon ∧ lon ≤ 180 ∧ -90 ≤ lat ∧ lat ≤ 90)
    (hsp : speedVal pd = some s) (hs : 1 / 10 < s)
    (hin : gdf.any (fun poly => shapelyContains poly (lon, lat)) = true)
    (hb : pd.bearing_deg = none) :
    analyzeInner dest (readyState gdf fpath) pd cfg = .error () := by
  unfold analyzeInner
  rw [hlon, hlat]
  dsimp only
  rw [if_pos hv, hsp]
  dsimp only
  rw [if_neg (not_le.mpr hs)]
  dsimp only [readyState]
  rw [containsAnyE_ready, hin]
  dsimp only
  rw [hb]
  rfl

/-! ## Properties of the scan order -/

/-- The scan order is a permutation of the configured (level, horizon) pairs. -/
theorem sortedLevels_perm (cfg : Config) :
    (sortedLevels cfg).Perm cfg.warning_levels_seconds :=
  List.mergeSort_perm cfg.warning_levels_seconds _

/-- The scan order is sorted by ascending horizon seconds. -/
theorem sortedLevels_sorted (cfg : Config) :
    (sortedLevels cfg).Pairwise (fun a b : Int × ℚ => a.2 ≤ b.2) := by
  have hs : (sortedLevels cfg).Pairwise
      (fun a b : Int × ℚ => decide (a.2 ≤ b.2) = true) :=
    List.sorted_mergeSort
      (fun a b c hab hbc => by
        simp only [decide_eq_true_eq] at *
        exact le_trans hab hbc)
      (fun a b => by rcases le_total a.2 b.2 with h | h <;> simp [h])
      cfg.warning_levels_seconds
  exact hs.imp (fun h => by simpa using h)

/-- With pairwise-distinct horizons, the scan order is strictly ascending. -/
theorem sortedLevels_strict (cfg : Config)
    (hdist : cfg.warning_levels_seconds.Pairwise (fun a b => a.2 ≠ b.2)) :
    (sortedLevels cfg).Pairwise (fun a b : Int × ℚ => a.2 < b.2) := by
  have hne : (sortedLevels cfg).Pairwise (fun a b : Int × ℚ => a.2 ≠ b.2) :=
    ((sortedLevels_perm cfg).pairwise_iff (fun hxy => Ne.symm hxy)).mpr hdist
  exact ((sortedLevels_sorted cfg).and hne).imp (fun h => lt_of_le_of_ne h.1 h.2)

/-! ## The claims -/

/-- C1: for a call with valid coordinates, a loadable/consistent zone source, a
moving vessel (`speed_knots > 0.1`), a current point inside the zone union and
a bearing present (without the key the scan cannot run, cf. C10), the
predictive scan walks the configured (level, horizonSeconds) pairs in strictly
ascending horizon order (strict thanks to pairwise-distinct horizons) and the
returned warning level is the level paired with the FIRST horizon whose
projected point lies outside every zone polygon - `0` when no configured
horizon's projection is outside. -/
theorem C1_first_exit_level (env : Env) (dest : ℚ → ℚ → ℚ → ℚ → ℚ × ℚ)
    (st : CacheState) (pd : PointData) (fpath : String) (cfg : Config)
    (zf : ZoneFile) (lon lat s bearing : ℚ)
    (hc : consistent env st)
    (hex : env.fileExists fpath = true) (hrd : env.readFile fpath = some zf)
    (hlon : pd.lon = some lon) (hlat : pd.lat = some lat)
    (hv : -180 ≤ lon ∧ lon ≤ 180 ∧ -90 ≤ lat ∧ lat ≤ 90)
    (hsp : speedVal pd = some s) (hs : 1 / 10 < s)
    (hb : pd.bearing_deg = some bearing)
    (hin : (normalizeCrs env zf).any (fun poly => shapelyContains poly (lon, lat)) = true)
    (hdist : cfg.warning_levels_seconds.Pairwise (fun a b => a.2 ≠ b.2)) :
    (analyze env dest st pd fpath cfg).warning =
      specFirstExitLevel dest lon lat bearing (s * knotsToMps cfg)
        (normalizeCrs env zf) (sortedLevels cfg) ∧
    (sortedLevels cfg).Pairwise (fun a b : Int × ℚ => a.2 < b.2) ∧
    (sortedLevels cfg).Perm cfg.warning_levels_seconds := by
  obtain ⟨b, h⟩ := analyze_ready env dest st pd fpath cfg zf hc hex hrd
  rw [h, inner_scan dest (normalizeCrs env zf) fpath pd cfg lon lat s bearing
    hlon hlat hv hsp hs hin hb]
  exact ⟨rfl, sortedLevels_strict cfg hdist, sortedLevels_perm cfg⟩

theorem C1_first_exit_level_witness :
    (analyze envA dest0 st0 pdIn "zones" cfgA).warning =
      specFirstExitLevel dest0 (1 / 2) (1 / 2) 0 (5 * knotsToMps cfgA)
        (normalizeCrs envA zfA) (sortedLevels cfgA) ∧
    (sortedLevels cfgA).Pairwise (fun a b : Int × ℚ => a.2 < b.2) ∧
    (sortedLevels cfgA).Perm cfgA.warning_levels_seconds :=
  C1_first_exit_level envA dest0 st0 pdIn "zones" cfgA zfA (1 / 2) (1 / 2) 5 0
    (Or.inl ⟨rfl, rfl, rfl⟩) rfl rfl rfl rfl (by with_unfolding_all decide) rfl
    (by with_unfolding_all decide) rfl (by with_unfolding_all decide)
    (by with_unfolding_all decide)

/-- C2 (amended): the two-phase containment test (spatial-index pruning then
exact polygon tests) returns true exactly when the point lies in the INTERIOR
of at least one zone polygon; shapely's `contains` is boundary-exclusive, so a
point exactly on a polygon boundary does NOT count as inside, and a moving
vessel positioned exactly on a zone boundary (and not in the interior of
another zone) is reported as outside (level 1, see the counterexample). -/
theorem C2_two_phase_containment :
    (∀ (gdf : List Polygon) (p : ℚ × ℚ),
      containsAnyE gdf (gdf.map polyBBox) p =
        .ok (gdf.any (fun poly => shapelyContains poly p))) ∧
    (∀ (poly : Polygon) (p : ℚ × ℚ),
      pointOnBoundary p poly = true → shapelyContains poly p = false) := by
  constructor
  · exact containsAnyE_ready
  · intro poly p h
    simp [shapelyContains, h]

theorem C2_two_phase_containment_witness :
    pointOnBoundary ((1 : ℚ) / 2, 0) unitSq = true ∧
    shapelyContains unitSq ((1 : ℚ) / 2, 0) = false :=
  ⟨by with_unfolding_all decide,
    C2_two_phase_containment.2 unitSq ((1 : ℚ) / 2, 0) (by with_unfolding_all decide)⟩

/-- C2 counterexample: the point `(1/2, 0)` lies exactly on the boundary of the
unit-square zone, yet a moving vessel there (speed 5 knots) is reported at
warning level 1 ("outside") by the current-position check - refuting "a point
lying exactly on a polygon's boundary counted as inside" and "the
current-position check does not report 'outside' (level 1)". -/
theorem C2_boundary_counterexample :
    pointOnBoundary ((1 : ℚ) / 2, 0) unitSq = true ∧
    (analyze envA dest0 st0 ⟨some (1 / 2), some 0, some (some 5), some 0⟩
      "zones" cfgA).warning = 1 ∧
    (analyze envA dest0 st0 ⟨some (1 / 2), some 0, some (some 5), some 0⟩
      "zones" cfgA).prediction_path = [(1 / 2, 0)] := by
  refine ⟨?_, ?_, ?_⟩ <;> with_unfolding_all decide

/-- C3: with valid coordinates and a loadable zone source, a missing, `None`
or `≤ 0.1` speed short-circuits to `(0, [[lon, lat]])`, wherever the point is
(the conclusion holds for every zone file content and every destination
function: no containment test and no projection can influence it). -/
theorem C3_stationary_short_circuit (env : Env) (dest : ℚ → ℚ → ℚ → ℚ → ℚ × ℚ)
    (st : CacheState) (pd : PointData) (fpath : String) (cfg : Config)
    (zf : ZoneFile) (lon lat : ℚ)
    (hc : consistent env st)
    (hex : env.fileExists fpath = true) (hrd : env.readFile fpath = some zf)
    (hlon : pd.lon = some lon) (hlat : pd.lat = some lat)
    (hv : -180 ≤ lon ∧ lon ≤ 180 ∧ -90 ≤ lat ∧ lat ≤ 90)
    (hsp : speedVal pd = none ∨ ∃ s, speedVal pd = some s ∧ s ≤ 1 / 10) :
    (analyze env dest st pd fpath cfg).warning = 0 ∧
    (analyze env dest st pd fpath cfg).prediction_path = [(lon, lat)] := by
  obtain ⟨b, h⟩ := analyze_ready env dest st pd fpath cfg zf hc hex hrd
  rw [h, inner_stationary dest _ pd cfg lon lat hlon hlat hv hsp]
  exact ⟨rfl, rfl⟩

theorem C3_stationary_short_circuit_witness :
    (analyze envA dest0 st0 ⟨some 2, some 2, some (some (1 / 20)), none⟩
      "zones" cfgA).warning = 0 ∧
    (analyze envA dest0 st0 ⟨some 2, some 2, some (some (1 / 20)), none⟩
      "zones" cfgA).prediction_path = [(2, 2)] :=
  C3_stationary_short_circuit envA dest0 st0 _ "zones" cfgA zfA 2 2
    (Or.inl ⟨rfl, rfl, rfl⟩) rfl rfl rfl rfl (by with_unfolding_all decide)
    (Or.inr ⟨1 / 20, rfl, by with_unfolding_all decide⟩)

/-- C4: with valid coordinates, a loadable zone source and `speed_knots > 0.1`,
a current point contained in no zone polygon yields exactly `(1, [[lon, lat]])`
- warning level 1, path holding only the current point, no projection
performed (the conclusion holds for every destination function). -/
theorem C4_outside_level_one (env : Env) (dest : ℚ → ℚ → ℚ → ℚ → ℚ × ℚ)
    (st : CacheState) (pd : PointData) (fpath : String) (cfg : Config)
    (zf : ZoneFile) (lon lat s : ℚ)
    (hc : consistent env st)
    (hex : env.fileExists fpath = true) (hrd : env.readFile fpath = some zf)
    (hlon : pd.lon = some lon) (hlat : pd.lat = some lat)
    (hv : -180 ≤ lon ∧ lon ≤ 180 ∧ -90 ≤ lat ∧ lat ≤ 90)
    (hsp : speedVal pd = some s) (hs : 1 / 10 < s)
    (hout : (normalizeCrs env zf).any (fun poly => shapelyContains poly (lon, lat)) = false) :
    (analyze env dest st pd fpath cfg).warning = 1 ∧
    (analyze env dest st pd fpath cfg).prediction_path = [(lon, lat)] := by
  obtain ⟨b, h⟩ := analyze_ready env dest st pd fpath cfg zf hc hex hrd
  rw [h, inner_outside dest (normalizeCrs env zf) fpath pd cfg lon lat s
    hlon hlat hv hsp hs hout]
  exact ⟨rfl, rfl⟩

theorem C4_outside_level_one_witness :
    (analyze envA dest0 st0 ⟨some 2, some 2, some (some 5), some 0⟩
      "zones" cfgA).warning = 1 ∧
    (analyze envA dest0 st0 ⟨some 2, some 2, some (some 5), some 0⟩
      "zones" cfgA).prediction_path = [(2, 2)] :=
  C4_outside_level_one envA dest0 st0 _ "zones" cfgA zfA 2 2 5
    (Or.inl ⟨rfl, rfl, rfl⟩) rfl rfl rfl rfl (by with_unfolding_all decide) rfl
    (by with_unfolding_all decide) (by with_unfolding_all decide)

/-- C5: the module-level cache invariant.  After any call, whatever its
outcome (normal return, early file-missing return, or the exception handler),
the three globals stay mutually consistent: the spatial index is the one built
from the cached geometries, and the geometries are the (reprojected) content
of the file named by the cached path; the triple is only ever replaced
together. -/
theorem C5_cache_consistency (env : Env) (dest : ℚ → ℚ → ℚ → ℚ → ℚ × ℚ)
    (st : CacheState) (pd : PointData) (fpath : String) (cfg : Config)
    (hc : consistent env st) :
    consistent env (analyze env dest st pd fpath cfg).state := by
  rcases analyze_state env dest st pd fpath cfg with h | ⟨zf, hex, hrd, h⟩
  · rw [h]; exact hc
  · rw [h]
    right
    exact ⟨fpath, zf, rfl, hex, hrd, rfl, rfl⟩

theorem C5_cache_consistency_witness :
    consistent envA st0 ∧
    consistent envA (analyze envA dest0 st0 pdIn "zones" cfgA).state :=
  ⟨Or.inl ⟨rfl, rfl, rfl⟩,
    C5_cache_consistency envA dest0 st0 pdIn "zones" cfgA (Or.inl ⟨rfl, rfl, rfl⟩)⟩

/-- C6 (amended): out-of-range coordinates always produce `(-1, [])`; but zone
loading (step 1 of the code) PRECEDES coordinate validation (step 2), so such
a call can still read the zone source and replace the cache globals before
returning the sentinel - see the counterexample; only the returned pair is as
the claim says. -/
theorem C6_invalid_coords_sentinel (env : Env) (dest : ℚ → ℚ → ℚ → ℚ → ℚ × ℚ)
    (st : CacheState) (pd : PointData) (fpath : String) (cfg : Config)
    (lon lat : ℚ)
    (hlon : pd.lon = some lon) (hlat : pd.lat = some lat)
    (hinv : ¬(-180 ≤ lon ∧ lon ≤ 180 ∧ -90 ≤ lat ∧ lat ≤ 90)) :
    (analyze env dest st pd fpath cfg).warning = -1 ∧
    (analyze env dest st pd fpath cfg).prediction_path = [] := by
  by_cases hneed : st.zones_path_cache ≠ some fpath ∨ st.zones_gdf_cache = none
  · cases hex : env.fileExists fpath with
    | false =>
        rw [analyze_eq_missing env dest st pd fpath cfg hneed hex]
        exact ⟨rfl, rfl⟩
    | true =>
        cases hrd : env.readFile fpath with
        | none =>
            rw [analyze_eq_readfail env dest st pd fpath cfg hneed hex hrd]
            exact ⟨rfl, rfl⟩
        | some zf =>
            rw [analyze_eq_load env dest st pd fpath cfg zf hneed hex hrd,
              inner_invalid dest _ pd cfg lon lat hlon hlat hinv]
            exact ⟨rfl, rfl⟩
  · push_neg at hneed
    rw [analyze_eq_cached env dest st pd fpath cfg hneed.1 hneed.2,
      inner_invalid dest st pd cfg lon lat hlon hlat hinv]
    exact ⟨rfl, rfl⟩

theorem C6_invalid_coords_sentinel_witness :
    (analyze envA dest0 st0 ⟨some 200, some 2, some (some 5), some 0⟩
      "zones" cfgA).warning = -1 ∧
    (analyze envA dest0 st0 ⟨some 200, some 2, some (some 5), some 0⟩
      "zones" cfgA).prediction_path = [] :=
  C6_invalid_coords_sentinel envA dest0 st0 _ "zones" cfgA 200 2 rfl rfl
    (by with_unfolding_all decide)

/-- C6 counterexample: starting from the empty cache with longitude `200`
(invalid) and a perfectly loadable zone file, the call returns the sentinel but
HAS read the zone source and replaced the cache globals - coordinate
validation does not precede zone loading, refuting "the call neither reads the
zone source nor modifies the zone cache globals". -/
theorem C6_load_before_validate_counterexample :
    (analyze envA dest0 st0 ⟨some 200, some 2, some (some 5), some 0⟩
      "zones" cfgA).warning = -1 ∧
    (analyze envA dest0 st0 ⟨some 200, some 2, some (some 5), some 0⟩
      "zones" cfgA).reloaded = true ∧
    (analyze envA dest0 st0 ⟨some 200, some 2, some (some 5), some 0⟩
      "zones" cfgA).state ≠ st0 := by
  refine ⟨?_, ?_, ?_⟩ <;> with_unfolding_all decide

/-- C7: `analyze_realtime_point` never propagates an exception: every call
either returns the try-block's normal result, or - when the body raised -
the handler's sentinel `(-1, [])`. -/
theorem C7_never_raises (env : Env) (dest : ℚ → ℚ → ℚ → ℚ → ℚ × ℚ)
    (st : CacheState) (pd : PointData) (fpath : String) (cfg : Config) :
    (∃ out, analyzeCore env dest st pd fpath cfg = .ok out ∧
      analyze env dest st pd fpath cfg = out) ∨
    ((analyze env dest st pd fpath cfg).warning = -1 ∧
      (analyze env dest st pd fpath cfg).prediction_path = []) := by
  unfold analyze
  cases h : analyzeCore env dest st pd fpath cfg with
  | ok out => left; exact ⟨out, rfl, rfl⟩
  | error e =>
      right
      obtain ⟨st2, b⟩ := e
      exact ⟨rfl, rfl⟩

/-- C8: in the predictive case the returned path is the current point followed
by one projected point per configured warning level in ascending-horizon
order, each at distance `speed_mps * horizonSeconds` along the given bearing;
its length is `1 + N` whatever warning level the scan returns. -/
theorem C8_prediction_path_shape (env : Env) (dest : ℚ → ℚ → ℚ → ℚ → ℚ × ℚ)
    (st : CacheState) (pd : PointData) (fpath : String) (cfg : Config)
    (zf : ZoneFile) (lon lat s bearing : ℚ)
    (hc : consistent env st)
    (hex : env.fileExists fpath = true) (hrd : env.readFile fpath = some zf)
    (hlon : pd.lon = some lon) (hlat : pd.lat = some lat)
    (hv : -180 ≤ lon ∧ lon ≤ 180 ∧ -90 ≤ lat ∧ lat ≤ 90)
    (hsp : speedVal pd = some s) (hs : 1 / 10 < s)
    (hb : pd.bearing_deg = some bearing)
    (hin : (normalizeCrs env zf).any (fun poly => shapelyContains poly (lon, lat)) = true) :
    (analyze env dest st pd fpath cfg).prediction_path =
      (lon, lat) :: (sortedLevels cfg).map
        (fun ls => dest lon lat bearing (s * knotsToMps cfg * ls.2)) ∧
    (analyze env dest st pd fpath cfg).prediction_path.length =
      1 + cfg.warning_levels_seconds.length := by
  obtain ⟨b, h⟩ := analyze_ready env dest st pd fpath cfg zf hc hex hrd
  rw [h, inner_scan dest (normalizeCrs env zf) fpath pd cfg lon lat s bearing
    hlon hlat hv hsp hs hin hb]
  refine ⟨rfl, ?_⟩
  show ((lon, lat) :: (sortedLevels cfg).map
    (fun ls => dest lon lat bearing (s * knotsToMps cfg * ls.2))).length = _
  simp only [List.length_cons, List.length_map, (sortedLevels_perm cfg).length_eq]
  omega

theorem C8_prediction_path_shape_witness :
    (analyze envA dest0 st0 pdIn "zones" cfgA).prediction_path =
      (1 / 2, 1 / 2) :: (sortedLevels cfgA).map
        (fun ls => dest0 (1 / 2) (1 / 2) 0 (5 * knotsToMps cfgA * ls.2)) ∧
    (analyze envA dest0 st0 pdIn "zones" cfgA).prediction_path.length =
      1 + cfgA.warning_levels_seconds.length :=
  C8_prediction_path_shape envA dest0 st0 pdIn "zones" cfgA zfA (1 / 2) (1 / 2) 5 0
    (Or.inl ⟨rfl, rfl, rfl⟩) rfl rfl rfl rfl (by with_unfolding_all decide) rfl
    (by with_unfolding_all decide) rfl (by with_unfolding_all decide)

/-- C9: two successive calls with the same (existing, parseable) zone-source
path parse the file at most once: the second call leaves all three cache
globals exactly as the first call left them and never enters the loading
branch (no file I/O); it works on the structurally identical cached
ZoneSet/index pair. -/
theorem C9_cache_idempotent (env : Env) (dest : ℚ → ℚ → ℚ → ℚ → ℚ × ℚ)
    (st : CacheState) (pd1 pd2 : PointData) (fpath : String) (cfg : Config)
    (zf : ZoneFile) (hc : consistent env st)
    (hex : env.fileExists fpath = true) (hrd : env.readFile fpath = some zf) :
    (analyze env dest (analyze env dest st pd1 fpath cfg).state pd2 fpath cfg).state =
      (analyze env dest st pd1 fpath cfg).state ∧
    (analyze env dest (analyze env dest st pd1 fpath cfg).state pd2 fpath cfg).reloaded =
      false := by
  obtain ⟨b, h1⟩ := analyze_ready env dest st pd1 fpath cfg zf hc hex hrd
  have hstate : (analyze env dest st pd1 fpath cfg).state =
      readyState (normalizeCrs env zf) fpath := by
    rw [h1]
    cases analyzeInner dest (readyState (normalizeCrs env zf) fpath) pd1 cfg with
    | ok v => obtain ⟨w, pp⟩ := v; rfl
    | error e => rfl
  rw [hstate,
    analyze_eq_cached env dest (readyState (normalizeCrs env zf) fpath) pd2 fpath cfg
      rfl (by simp [readyState])]
  cases analyzeInner dest (readyState (normalizeCrs env zf) fpath) pd2 cfg with
  | ok v => obtain ⟨w, pp⟩ := v; exact ⟨rfl, rfl⟩
  | error e => exact ⟨rfl, rfl⟩

theorem C9_cache_idempotent_witness :
    (analyze envA dest0 (analyze envA dest0 st0 pdIn "zones" cfgA).state
      pdIn "zones" cfgA).state = (analyze envA dest0 st0 pdIn "zones" cfgA).state ∧
    (analyze envA dest0 (analyze envA dest0 st0 pdIn "zones" cfgA).state
      pdIn "zones" cfgA).reloaded = false :=
  C9_cache_idempotent envA dest0 st0 pdIn pdIn "zones" cfgA zfA
    (Or.inl ⟨rfl, rfl, rfl⟩) rfl rfl

/-- C10: with valid coordinates, loadable zones, a moving vessel inside the
zone union but NO `bearing_deg` key, the call returns `(-1, [])`: reading the
missing key raises `KeyError`, which the catch-all handler converts into the
error sentinel. -/
theorem C10_missing_bearing_error (env : Env) (dest : ℚ → ℚ → ℚ → ℚ → ℚ × ℚ)
    (st : CacheState) (pd : PointData) (fpath : String) (cfg : Config)
    (zf : ZoneFile) (lon lat s : ℚ)
    (hc : consistent env st)
    (hex : env.fileExists fpath = true) (hrd : env.readFile fpath = some zf)
    (hlon : pd.lon = some lon) (hlat : pd.lat = some lat)
    (hv : -180 ≤ lon ∧ lon ≤ 180 ∧ -90 ≤ lat ∧ lat ≤ 90)
    (hsp : speedVal pd = some s) (hs : 1 / 10 < s)
    (hin : (normalizeCrs env zf).any (fun poly => shapelyContains poly (lon, lat)) = true)
    (hb : pd.bearing_deg = none) :
    (analyze env dest st pd fpath cfg).warning = -1 ∧
    (analyze env dest st pd fpath cfg).prediction_path = [] := by
  obtain ⟨b, h⟩ := analyze_ready env dest st pd fpath cfg zf hc hex hrd
  rw [h, inner_nobearing dest (normalizeCrs env zf) fpath pd cfg lon lat s
    hlon hlat hv hsp hs hin hb]
  exact ⟨rfl, rfl⟩

theorem C10_missing_bearing_error_witness :
    (analyze envA dest0 st0 ⟨some (1 / 2), some (1 / 2), some (some 5), none⟩
      "zones" cfgA).warning = -1 ∧
    (analyze envA dest0 st0 ⟨some (1 / 2), some (1 / 2), some (some 5), none⟩
      "zones" cfgA).prediction_path = [] :=
  C10_missing_bearing_error envA dest0 st0 _ "zones" cfgA zfA (1 / 2) (1 / 2) 5
    (Or.inl ⟨rfl, rfl, rfl⟩) rfl rfl rfl rfl (by with_unfolding_all decide) rfl
    (by with_unfolding_all decide) (by with_unfolding_all decide) rfl

